import Mathlib

/-! Shallow embedding of the mini-cloud orchestration core
(`internal/resourcemanager/resourcemanager.go`, `internal/manager/manager.go`,
`internal/cluster/cluster.go`).

Modelling conventions:
* A Go `map[string]V` is modelled as an association list with unique keys;
  insertion order is irrelevant for every observable used by the code
  (lookup, value sums, key sets), matching the source's use of maps.  Go map
  iteration order is modelled as list order.
* `float64` CPU quantities are modelled as `ℚ` (the spec's "non-negative
  fractional cores"); `int` / `int64` memory amounts and `time.Duration` /
  `time.Time` values are modelled as `ℤ`.
* The Docker SDK client is modelled as a record of response functions
  (`DockerClient`); `context.Context` carries no information used by the
  core and is dropped.
* A Go `(value, error)` return is modelled as `Option value × Option String`
  (`none` = Go `nil`), so a function can faithfully return a nil value
  together with a nil error; methods that mutate their receiver through a
  pointer additionally return the updated state.
* `uuid.New().String()` and `time.Now()` are modelled as explicit parameters
  (`containerID`, `now`) of the functions that call them.
* In `main.go` each `cluster.Node` and its `manager.Manager` share one
  `*ResourceManager` and one `*DockerClient`; the embedding keeps the single
  copy inside the manager and exposes the node's aliases as projections.
-/

namespace MiniCloud

/-! ### Go map model -/

namespace GoMap

variable {α : Type}

/-- Go map read `m[k]`. -/
def lookup (k : String) : List (String × α) → Option α
  | [] => none
  | p :: ps => if p.1 = k then some p.2 else lookup k ps

/-- Go `delete(m, k)`. -/
def erase (k : String) : List (String × α) → List (String × α)
  | [] => []
  | p :: ps => if p.1 = k then erase k ps else p :: erase k ps

/-- Go map write `m[k] = v` (replaces any existing binding of `k`). -/
def set (k : String) (v : α) (l : List (String × α)) : List (String × α) :=
  (k, v) :: erase k l

/-- Sum of all values of the map (`for _, v := range m { sum += v }`). -/
def sumVals [AddCommMonoid α] (l : List (String × α)) : α :=
  (l.map Prod.snd).sum

end GoMap

/-! ### `internal/resourcemanager/resourcemanager.go` -/

/-- Go struct `resourcemanager.ResourceSpec`: CPU in cores, memory in MB. -/
structure ResourceSpec where
  CPU : ℚ
  Memory : ℤ
deriving DecidableEq

/-- Go struct `resourcemanager.ResourceManager` (the per-node resource ledger). -/
structure ResourceManager where
  TotalCPU : ℚ
  TotalMemory : ℤ
  allocatedCPU : List (String × ℚ)
  allocatedMemory : List (String × ℤ)
deriving DecidableEq

/-- Go function `resourcemanager.NewResourceManager`. -/
def NewResourceManager (cpu : ℚ) (memory : ℤ) : ResourceManager :=
  { TotalCPU := cpu, TotalMemory := memory, allocatedCPU := [], allocatedMemory := [] }

namespace ResourceManager

/-- Go method `(*ResourceManager).AllocatedCPUSum`. -/
def AllocatedCPUSum (rm : ResourceManager) : ℚ :=
  GoMap.sumVals rm.allocatedCPU

/-- Go method `(*ResourceManager).AllocatedMemorySum`. -/
def AllocatedMemorySum (rm : ResourceManager) : ℤ :=
  GoMap.sumVals rm.allocatedMemory

/-- Go method `(*ResourceManager).Usage`. -/
def Usage (rm : ResourceManager) : ResourceSpec :=
  { CPU := rm.AllocatedCPUSum, Memory := rm.AllocatedMemorySum }

/-- Go method `(*ResourceManager).CanAllocate`. -/
def CanAllocate (rm : ResourceManager) (spec : ResourceSpec) : Bool :=
  decide (rm.AllocatedCPUSum + spec.CPU ≤ rm.TotalCPU) &&
    decide (rm.AllocatedMemorySum + spec.Memory ≤ rm.TotalMemory)

/-- Go method `(*ResourceManager).Allocate`: atomic re-check and reserve; returns the
updated ledger and the Go boolean result. -/
def Allocate (rm : ResourceManager) (id : String) (spec : ResourceSpec) :
    ResourceManager × Bool :=
  if rm.AllocatedCPUSum + spec.CPU > rm.TotalCPU ∨
      rm.AllocatedMemorySum + spec.Memory > rm.TotalMemory then
    (rm, false)
  else
    ({ rm with
        allocatedCPU := GoMap.set id spec.CPU rm.allocatedCPU,
        allocatedMemory := GoMap.set id spec.Memory rm.allocatedMemory }, true)

/-- Go method `(*ResourceManager).Release`. -/
def Release (rm : ResourceManager) (id : String) : ResourceManager :=
  { rm with
      allocatedCPU := GoMap.erase id rm.allocatedCPU,
      allocatedMemory := GoMap.erase id rm.allocatedMemory }

end ResourceManager

/-! ### `internal/docker/docker.go` (interface boundary) -/

/-- Go struct `docker.ContainerSpec`. -/
structure ContainerSpec where
  Image : String
  Name : String
  CPU : ℚ
  Memory : ℤ
  Command : List String
  TTL : ℤ
deriving DecidableEq

/-- Go struct `docker.DockerClient`, modelled as an oracle of backend responses (the
execution backend is an external collaborator; only its call signatures
matter to the core). -/
structure DockerClient where
  PullImage : String → Except String Unit
  CreateContainer : ContainerSpec → Except String String
  StartContainer : String → Except String Unit
  StopContainer : String → Except String Unit
  RemoveContainer : String → Except String Unit

/-! ### `internal/manager/manager.go` -/

/-- Go struct `manager.ContainerInfo`. -/
structure ContainerInfo where
  ID : String
  Name : String
  Image : String
  CPU : ℚ
  MemoryMB : ℤ
  CreatedAt : ℤ
  Status : String
  TTL : ℤ
deriving DecidableEq

/-- Go struct `manager.Manager` (per-node lifecycle manager). -/
structure Manager where
  docker : DockerClient
  state : List (String × ContainerInfo)
  resources : ResourceManager

/-- Go function `manager.NewManager`. -/
def NewManager (dc : DockerClient) (rm : ResourceManager) : Manager :=
  { docker := dc, state := [], resources := rm }

namespace Manager

/-- Go method `(*Manager).AddContainer`. -/
def AddContainer (m : Manager) (id : String) (info : ContainerInfo) : Manager :=
  { m with state := GoMap.set id info m.state }

/-- Go method `(*Manager).ProvisionContainer`.  `now` stands for `time.Now()`. -/
def ProvisionContainer (m : Manager) (now : ℤ) (spec : ContainerSpec) :
    Manager × Option ContainerInfo × Option String :=
  let rSpec : ResourceSpec := { CPU := spec.CPU, Memory := spec.Memory }
  if m.resources.CanAllocate rSpec = false then
    (m, none, some "insufficient resources to allocate container")
  else
    let ar := m.resources.Allocate spec.Name rSpec
    if ar.2 = false then
      ({ m with resources := ar.1 }, none, some "failed to reserve resources")
    else
      let m1 : Manager := { m with resources := ar.1 }
      match m1.docker.PullImage spec.Image with
      | .error e =>
          ({ m1 with resources := ar.1.Release spec.Name }, none,
            some ("failed to pull image: " ++ e))
      | .ok _ =>
        match m1.docker.CreateContainer spec with
        | .error e =>
            ({ m1 with resources := ar.1.Release spec.Name }, none,
              some ("failed to create container: " ++ e))
        | .ok id =>
          match m1.docker.StartContainer id with
          | .error e =>
              ({ m1 with resources := ar.1.Release spec.Name }, none,
                some ("failed to start container: " ++ e))
          | .ok _ =>
              let info : ContainerInfo :=
                { ID := id, Name := spec.Name, Image := spec.Image,
                  CPU := spec.CPU, MemoryMB := spec.Memory, CreatedAt := now,
                  Status := "running", TTL := spec.TTL }
              ({ m1 with state := GoMap.set id info m1.state }, some info, none)

/-- Go method `(*Manager).TerminateContainer`. -/
def TerminateContainer (m : Manager) (id : String) : Manager × Option String :=
  match GoMap.lookup id m.state with
  | none => (m, some "container not found")
  | some info =>
    match m.docker.StopContainer id with
    | .error e => (m, some ("stop error: " ++ e))
    | .ok _ =>
      match m.docker.RemoveContainer id with
      | .error e => (m, some ("remove error: " ++ e))
      | .ok _ =>
          ({ m with
              resources := m.resources.Release info.Name,
              state := GoMap.erase id m.state }, none)

/-- Go method `(*Manager).GetContainerStatus`. -/
def GetContainerStatus (m : Manager) (id : String) :
    Option ContainerInfo × Option String :=
  match GoMap.lookup id m.state with
  | none => (none, some "container not found")
  | some info => (some info, none)

/-- Go method `(*Manager).cleanupExpiredContainers`: one run of the expiration sweep
(`now` is the single `time.Now()` snapshot taken before the scan; the
unlock/relock around `TerminateContainer` is a locking detail with no
sequential effect).  `CreatedAt.Add(TTL).Before(now)` is the strict order
`CreatedAt + TTL < now`. -/
def cleanupExpiredContainers (m : Manager) (now : ℤ) : Manager :=
  m.state.foldl
    (fun acc p =>
      if p.2.TTL > 0 ∧ p.2.CreatedAt + p.2.TTL < now then
        (acc.TerminateContainer p.1).1
      else acc)
    m

end Manager

/-! ### `internal/cluster/cluster.go` -/

/-- Go struct `cluster.Node`.  In `main.go` the node's `Resources` and `Docker` fields
alias the ones owned by its `Manager`; the embedding stores the single copy
in `mgr` and exposes the aliases as projections below. -/
structure Node where
  ID : String
  mgr : Manager

/-- The node's `Resources` field (aliasing `mgr.resources`). -/
def Node.Resources (n : Node) : ResourceManager :=
  n.mgr.resources

/-- The node's `Docker` field (aliasing `mgr.docker`). -/
def Node.Docker (n : Node) : DockerClient :=
  n.mgr.docker

/-- Go struct `cluster.ClusterManager`.  `nodes` is a Go map keyed by node ID; the
list order models its iteration order.  `assignments` maps container ID to
node name. -/
structure ClusterManager where
  nodes : List Node
  assignments : List (String × String)

/-- Go function `cluster.NewClusterManager`. -/
def NewClusterManager (nodes : List Node) : ClusterManager :=
  { nodes := nodes, assignments := [] }

namespace ClusterManager

/-- The fitness score computed inside `Schedule`'s selection loop:
`leftoverCPU + float64(TotalMemory-(AllocatedMemorySum+Memory))/1024.0`. -/
def scoreOf (rm : ResourceManager) (spec : ResourceSpec) : ℚ :=
  (rm.TotalCPU - (rm.AllocatedCPUSum + spec.CPU)) +
    ((rm.TotalMemory - (rm.AllocatedMemorySum + spec.Memory) : ℤ) : ℚ) / 1024

/-- One iteration of `Schedule`'s node-selection loop.  The accumulator is
`(selectedNode, minLeftover)`; `none` models the initial
`selectedNode == nil && minLeftover == math.MaxFloat64` state (every real
score is below `math.MaxFloat64`, so the first eligible node is always
taken). -/
def selStep (spec : ResourceSpec) (acc : Option (Node × ℚ)) (node : Node) :
    Option (Node × ℚ) :=
  if node.Resources.CanAllocate spec then
    let leftover := scoreOf node.Resources spec
    match acc with
    | none => some (node, leftover)
    | some (b, best) =>
        if leftover < best then some (node, leftover) else some (b, best)
  else acc

/-- The selection loop of `Schedule` (lines 46-66 of `cluster.go`). -/
def selectNode (nodes : List Node) (spec : ResourceSpec) : Option Node :=
  (nodes.foldl (selStep spec) none).map Prod.fst

/-- Writing an updated node back into the cluster's node map (in Go the
node is mutated through its pointer; node IDs are unique map keys). -/
def setNode (cm : ClusterManager) (n : Node) : ClusterManager :=
  { cm with nodes := cm.nodes.map fun x => if x.ID = n.ID then n else x }

/-- Go method `(*ClusterManager).Schedule`.  `containerID` stands for
`uuid.New().String()` and `now` for `time.Now()`.  Note the source's
shadowed `err :=` in the start-failure branch: when `RemoveContainer`
succeeds the function returns `(nil, nil)`. -/
def Schedule (cm : ClusterManager) (containerID : String) (now : ℤ)
    (spec : ContainerSpec) :
    ClusterManager × Option ContainerInfo × Option String :=
  let rSpec : ResourceSpec := { CPU := spec.CPU, Memory := spec.Memory }
  match selectNode cm.nodes rSpec with
  | none => (cm, none, some "no node has enough resources")
  | some node =>
    let ar := node.Resources.Allocate containerID rSpec
    if ar.2 = false then
      (setNode cm { node with mgr := { node.mgr with resources := ar.1 } },
        none, some "failed to allocate resources")
    else
      let node1 : Node := { node with mgr := { node.mgr with resources := ar.1 } }
      let spec1 := { spec with Name := containerID }
      match node1.Docker.CreateContainer spec1 with
      | .error e =>
          (setNode cm
            { node1 with mgr := { node1.mgr with resources := ar.1.Release containerID } },
            none, some e)
      | .ok id =>
        match node1.Docker.StartContainer id with
        | .ok _ =>
            let info : ContainerInfo :=
              { ID := id, Name := spec1.Name, Image := spec1.Image,
                CPU := spec1.CPU, MemoryMB := spec1.Memory, CreatedAt := now,
                Status := "Running", TTL := spec1.TTL }
            (setNode cm { node1 with mgr := node1.mgr.AddContainer id info },
              some info, none)
        | .error _ =>
          match node1.Docker.RemoveContainer id with
          | .error e2 => (setNode cm node1, none, some e2)
          | .ok _ =>
              (setNode cm
                { node1 with mgr := { node1.mgr with resources := ar.1.Release containerID } },
                none, none)

/-- The loop body of `(*ClusterManager).TerminateContainer`: try each node's
manager in turn; on the first success release `id` on that node's ledger and
stop.  Returns the updated node list and the error result. -/
def termLoop (id : String) : List Node → List Node × Option String
  | [] => ([], some "container not found")
  | n :: rest =>
    let r := n.mgr.TerminateContainer id
    match r.2 with
    | none =>
        ({ n with mgr := { r.1 with resources := r.1.resources.Release id } } :: rest,
          none)
    | some _ =>
        let tail := termLoop id rest
        ({ n with mgr := r.1 } :: tail.1, tail.2)

/-- Go method `(*ClusterManager).TerminateContainer`. -/
def TerminateContainer (cm : ClusterManager) (id : String) :
    ClusterManager × Option String :=
  let r := termLoop id cm.nodes
  ({ cm with nodes := r.1 }, r.2)

/-- Go method `(*ClusterManager).GetContainerStatus`: routes through `assignments`. -/
def GetContainerStatus (cm : ClusterManager) (id : String) :
    Option ContainerInfo × Option String :=
  match GoMap.lookup id cm.assignments with
  | none => (none, some ("container " ++ id ++ " not found"))
  | some nodeName =>
    match (cm.nodes.find? fun n => n.ID = nodeName) with
    | none => (none, some ("node " ++ nodeName ++ " not found for container " ++ id))
    | some node => node.mgr.GetContainerStatus id

end ClusterManager

/-! ### Ledger operation sequences (for the spec's §8 invariant) -/

/-- One external call on a resource ledger. -/
inductive LedgerOp where
  | alloc (id : String) (spec : ResourceSpec)
  | release (id : String)

/-- Apply one ledger call. -/
def LedgerOp.apply (op : LedgerOp) (rm : ResourceManager) : ResourceManager :=
  match op with
  | .alloc id spec => (rm.Allocate id spec).1
  | .release id => rm.Release id

/-- Apply a sequence of ledger calls, left to right. -/
def applyOps (rm : ResourceManager) (ops : List LedgerOp) : ResourceManager :=
  ops.foldl (fun r op => op.apply r) rm

/-- A call whose request amounts are non-negative (the spec's numeric
semantics for `ResourceSpec`). -/
def LedgerOp.Nonneg : LedgerOp → Prop
  | .alloc _ spec => 0 ≤ spec.CPU ∧ 0 ≤ spec.Memory
  | .release _ => True

/-- The C10 invariant: a workload id has a CPU reservation iff it has a
memory reservation. -/
def EqKeys (rm : ResourceManager) : Prop :=
  ∀ k, (GoMap.lookup k rm.allocatedCPU).isSome =
    (GoMap.lookup k rm.allocatedMemory).isSome

/-! ### Concrete fixtures for counterexamples and witnesses -/

/-- A backend on which every call succeeds; `CreateContainer` returns `"c1"`. -/
def dockerOK : DockerClient :=
  { PullImage := fun _ => .ok ()
    CreateContainer := fun _ => .ok "c1"
    StartContainer := fun _ => .ok ()
    StopContainer := fun _ => .ok ()
    RemoveContainer := fun _ => .ok () }

/-- A backend where the unit starts but both the start and the cleanup
removal fail. -/
def dockerStartRemoveFail : DockerClient :=
  { PullImage := fun _ => .ok ()
    CreateContainer := fun _ => .ok "c1"
    StartContainer := fun _ => .error "start failure"
    StopContainer := fun _ => .ok ()
    RemoveContainer := fun _ => .error "remove failure" }

/-- A backend where the start fails but the cleanup removal succeeds. -/
def dockerStartFailRemoveOK : DockerClient :=
  { PullImage := fun _ => .ok ()
    CreateContainer := fun _ => .ok "c1"
    StartContainer := fun _ => .error "start failure"
    StopContainer := fun _ => .ok ()
    RemoveContainer := fun _ => .ok () }

/-- A backend whose image pull always fails while everything else succeeds. -/
def dockerPullBroken : DockerClient :=
  { PullImage := fun _ => .error "pull failure"
    CreateContainer := fun _ => .ok "c1"
    StartContainer := fun _ => .ok ()
    StopContainer := fun _ => .ok ()
    RemoveContainer := fun _ => .ok () }

/-- A fresh node with the given backend and capacities (as wired in
`main.go`: a new manager sharing the node's ledger and client). -/
def mkNode (id : String) (d : DockerClient) (cpu : ℚ) (mem : ℤ) : Node :=
  { ID := id, mgr := NewManager d (NewResourceManager cpu mem) }

/-- The provisioning request used by the concrete scenarios:
1 core / 2048 MB. -/
def specReq : ContainerSpec :=
  { Image := "img", Name := "web", CPU := 1, Memory := 2048,
    Command := [], TTL := 0 }

/-- One-node cluster whose backend fails at start and at the cleanup
removal. -/
def cmLeak : ClusterManager :=
  { nodes := [mkNode "n1" dockerStartRemoveFail 4 8192], assignments := [] }

/-- One-node cluster with an all-success backend. -/
def cmHappy : ClusterManager :=
  { nodes := [mkNode "n1" dockerOK 4 8192], assignments := [] }

/-- A workload record held by a node while absent from the cluster's
assignment mapping. -/
def infoHeld : ContainerInfo :=
  { ID := "c9", Name := "w9", Image := "img", CPU := 1, MemoryMB := 100,
    CreatedAt := 0, Status := "Running", TTL := 0 }

/-- A node already holding `infoHeld` under state key `"c9"`, with its
reservation recorded under the workload name `"w9"`. -/
def nodeHeld : Node :=
  { ID := "n1",
    mgr :=
      { docker := dockerOK,
        state := [("c9", infoHeld)],
        resources :=
          { TotalCPU := 4, TotalMemory := 8192,
            allocatedCPU := [("w9", 1)], allocatedMemory := [("w9", 100)] } } }

/-- Cluster holding `nodeHeld` with an empty assignment mapping. -/
def cmHeld : ClusterManager :=
  { nodes := [nodeHeld], assignments := [] }

/-- One-node cluster whose backend cannot pull images. -/
def cmNoPull : ClusterManager :=
  { nodes := [mkNode "n1" dockerPullBroken 4 8192], assignments := [] }

/-- A fresh manager on the pull-broken backend (for comparing
`ProvisionContainer` with `Schedule`). -/
def mgrNoPull : Manager :=
  NewManager dockerPullBroken (NewResourceManager 4 8192)

/-- The spec's scheduling example: node A, 4 cores / 8192 MB, empty. -/
def nodeA : Node := mkNode "nodeA" dockerOK 4 8192

/-- The spec's scheduling example: node B, 8 cores / 16384 MB, empty. -/
def nodeB : Node := mkNode "nodeB" dockerOK 8 16384

/-- A node too small to admit any non-trivial request. -/
def nodeTiny : Node := mkNode "tiny" dockerOK 0 0

/-- Cluster containing only `nodeTiny`. -/
def cmTiny : ClusterManager := { nodes := [nodeTiny], assignments := [] }

/-- A record that is expired at time 10 (TTL 5, created at 0). -/
def infoExpiring : ContainerInfo :=
  { ID := "a", Name := "wa", Image := "img", CPU := 1, MemoryMB := 100,
    CreatedAt := 0, Status := "running", TTL := 5 }

/-- A record with TTL 0 ("never expires"), created at 0. -/
def infoForever : ContainerInfo :=
  { ID := "b", Name := "wb", Image := "img", CPU := 1, MemoryMB := 100,
    CreatedAt := 0, Status := "running", TTL := 0 }

/-- A record with a negative TTL (`time.ParseDuration` accepts negative
durations), created at 0. -/
def infoNegTTL : ContainerInfo :=
  { ID := "x", Name := "wx", Image := "img", CPU := 1, MemoryMB := 100,
    CreatedAt := 0, Status := "running", TTL := -1 }

/-- A manager holding one expiring and one never-expiring record, with
ledger reservations for both. -/
def mgrSweep : Manager :=
  { docker := dockerOK,
    state := [("a", infoExpiring), ("b", infoForever)],
    resources :=
      { TotalCPU := 4, TotalMemory := 8192,
        allocatedCPU := [("wa", 1), ("wb", 1)],
        allocatedMemory := [("wa", 100), ("wb", 100)] } }

/-- A manager holding only the negative-TTL record. -/
def mgrNegTTL : Manager :=
  { docker := dockerOK,
    state := [("x", infoNegTTL)],
    resources :=
      { TotalCPU := 4, TotalMemory := 8192,
        allocatedCPU := [("wx", 1)], allocatedMemory := [("wx", 100)] } }

/-! ### Invariants used by the claims -/

/-- The C5 induction invariant: every recorded reservation amount is
non-negative and the recorded sums fit the totals. -/
def Sound (rm : ResourceManager) : Prop :=
  (∀ p ∈ rm.allocatedCPU, 0 ≤ p.2) ∧ (∀ p ∈ rm.allocatedMemory, 0 ≤ p.2) ∧
    rm.AllocatedCPUSum ≤ rm.TotalCPU ∧ rm.AllocatedMemorySum ≤ rm.TotalMemory

/-! ## Map lemmas -/

namespace GoMap

variable {α : Type}

theorem sumVals_nil [AddCommMonoid α] : sumVals ([] : List (String × α)) = 0 := rfl

theorem sumVals_cons [AddCommMonoid α] (p : String × α) (l : List (String × α)) :
    sumVals (p :: l) = p.2 + sumVals l := by
  simp [sumVals]

theorem mem_of_mem_erase {p : String × α} {k : String} {l : List (String × α)}
    (h : p ∈ erase k l) : p ∈ l := by
  induction l with
  | nil => simp [erase] at h
  | cons q qs ih =>
    by_cases hq : q.1 = k
    · simp only [erase, if_pos hq] at h
      exact List.mem_cons_of_mem _ (ih h)
    · simp only [erase, if_neg hq] at h
      rw [List.mem_cons] at h
      rcases h with h | h
      · exact h ▸ List.mem_cons_self _ _
      · exact List.mem_cons_of_mem _ (ih h)

theorem sumVals_erase_le [OrderedAddCommMonoid α] (k : String)
    {l : List (String × α)} (h : ∀ p ∈ l, 0 ≤ p.2) :
    sumVals (erase k l) ≤ sumVals l := by
  induction l with
  | nil => simp [erase]
  | cons p ps ih =>
    have hp : 0 ≤ p.2 := h p (List.mem_cons_self _ _)
    have hps : ∀ q ∈ ps, 0 ≤ q.2 := fun q hq => h q (List.mem_cons_of_mem _ hq)
    by_cases hk : p.1 = k
    · simp only [erase, if_pos hk, sumVals_cons]
      exact (ih hps).trans (le_add_of_nonneg_left hp)
    · simp only [erase, if_neg hk, sumVals_cons]
      exact add_le_add_left (ih hps) _

theorem lookup_eq_none_iff {k : String} {l : List (String × α)} :
    lookup k l = none ↔ ∀ p ∈ l, p.1 ≠ k := by
  induction l with
  | nil => simp [lookup]
  | cons p ps ih =>
    by_cases hp : p.1 = k
    · simp [lookup, if_pos hp, hp]
    · simp [lookup, if_neg hp, ih, hp]

theorem erase_of_lookup_none {k : String} {l : List (String × α)}
    (h : lookup k l = none) : erase k l = l := by
  induction l with
  | nil => rfl
  | cons p ps ih =>
    rw [lookup_eq_none_iff] at h
    have hp : p.1 ≠ k := h p (List.mem_cons_self _ _)
    have hps : lookup k ps = none :=
      lookup_eq_none_iff.mpr fun q hq => h q (List.mem_cons_of_mem _ hq)
    simp [erase, if_neg hp, ih hps]

theorem erase_erase (k : String) (l : List (String × α)) :
    erase k (erase k l) = erase k l := by
  induction l with
  | nil => rfl
  | cons p ps ih =>
    by_cases hp : p.1 = k
    · simp [erase, if_pos hp, ih]
    · simp [erase, if_neg hp, ih]

theorem lookup_erase_self (k : String) (l : List (String × α)) :
    lookup k (erase k l) = none := by
  induction l with
  | nil => rfl
  | cons p ps ih =>
    by_cases hp : p.1 = k
    · simp [erase, if_pos hp, ih]
    · simp [erase, if_neg hp, lookup, ih, hp]

theorem lookup_erase_ne {k j : String} (h : j ≠ k) (l : List (String × α)) :
    lookup k (erase j l) = lookup k l := by
  induction l with
  | nil => rfl
  | cons p ps ih =>
    by_cases hp : p.1 = j
    · have : p.1 ≠ k := by rw [hp]; exact h
      simp [erase, if_pos hp, lookup, if_neg this, ih]
    · simp only [erase, if_neg hp, lookup]
      by_cases hk : p.1 = k
      · simp [if_pos hk]
      · simp [if_neg hk, ih]

theorem lookup_set_self (k : String) (v : α) (l : List (String × α)) :
    lookup k (set k v l) = some v := by
  simp [set, lookup]

theorem lookup_set_ne {k j : String} (h : j ≠ k) (v : α) (l : List (String × α)) :
    lookup k (set j v l) = lookup k l := by
  simp [set, lookup, if_neg h, lookup_erase_ne h]

theorem lookup_eq_some_mem {k : String} {v : α} {l : List (String × α)}
    (h : lookup k l = some v) : (k, v) ∈ l := by
  induction l with
  | nil => simp [lookup] at h
  | cons p ps ih =>
    by_cases hp : p.1 = k
    · simp only [lookup, if_pos hp] at h
      rw [List.mem_cons]
      left
      obtain ⟨p1, p2⟩ := p
      simp only at hp
      obtain rfl := hp
      obtain rfl := Option.some.inj h
      rfl
    · simp only [lookup, if_neg hp] at h
      exact List.mem_cons_of_mem _ (ih h)

theorem lookup_of_mem_nodup {k : String} {v : α} {l : List (String × α)}
    (hnd : (l.map Prod.fst).Nodup) (h : (k, v) ∈ l) : lookup k l = some v := by
  induction l with
  | nil => simp at h
  | cons p ps ih =>
    simp only [List.map_cons, List.nodup_cons] at hnd
    rw [List.mem_cons] at h
    rcases h with h | h
    · simp [← h, lookup]
    · have hk : p.1 ≠ k := by
        intro hpk
        exact hnd.1 (hpk ▸ (List.mem_map.mpr ⟨(k, v), h, rfl⟩))
      simp [lookup, if_neg hk, ih hnd.2 h]

end GoMap

/-! ## Ledger lemmas -/

namespace ResourceManager

theorem allocate_fst_total (rm : ResourceManager) (id : String) (spec : ResourceSpec) :
    (rm.Allocate id spec).1.TotalCPU = rm.TotalCPU ∧
      (rm.Allocate id spec).1.TotalMemory = rm.TotalMemory := by
  unfold Allocate
  split <;> simp

theorem allocate_snd_eq_canAllocate (rm : ResourceManager) (id : String)
    (spec : ResourceSpec) : (rm.Allocate id spec).2 = rm.CanAllocate spec := by
  unfold Allocate CanAllocate
  split
  · next h =>
    rcases h with h | h
    · simp [not_le.mpr h]
    · simp [not_le.mpr h]
  · next h =>
    push_neg at h
    simp [h.1, h.2]

theorem release_total (rm : ResourceManager) (id : String) :
    (rm.Release id).TotalCPU = rm.TotalCPU ∧
      (rm.Release id).TotalMemory = rm.TotalMemory := by
  simp [Release]

end ResourceManager

theorem sound_apply (op : LedgerOp) (rm : ResourceManager)
    (h : Sound rm) (hop : op.Nonneg) : Sound (op.apply rm) := by
  obtain ⟨hC, hM, hsc, hsm⟩ := h
  cases op with
  | release id =>
    refine ⟨fun p hp => hC p (GoMap.mem_of_mem_erase hp),
            fun p hp => hM p (GoMap.mem_of_mem_erase hp), ?_, ?_⟩
    · exact (GoMap.sumVals_erase_le id hC).trans hsc
    · exact (GoMap.sumVals_erase_le id hM).trans hsm
  | alloc id spec =>
    obtain ⟨hc0, hm0⟩ := hop
    show Sound (rm.Allocate id spec).1
    unfold ResourceManager.Allocate
    split
    · exact ⟨hC, hM, hsc, hsm⟩
    · next hlt =>
      push_neg at hlt
      obtain ⟨h1, h2⟩ := hlt
      refine ⟨?_, ?_, ?_, ?_⟩
      · intro p hp
        simp only [GoMap.set, List.mem_cons] at hp
        rcases hp with hp | hp
        · simp [hp]; exact hc0
        · exact hC p (GoMap.mem_of_mem_erase hp)
      · intro p hp
        simp only [GoMap.set, List.mem_cons] at hp
        rcases hp with hp | hp
        · simp [hp]; exact hm0
        · exact hM p (GoMap.mem_of_mem_erase hp)
      · show GoMap.sumVals (GoMap.set id spec.CPU rm.allocatedCPU) ≤ rm.TotalCPU
        rw [GoMap.set, GoMap.sumVals_cons]
        have := GoMap.sumVals_erase_le id hC
        have hcomm : rm.AllocatedCPUSum + spec.CPU ≤ rm.TotalCPU := h1
        unfold ResourceManager.AllocatedCPUSum at hcomm
        linarith
      · show GoMap.sumVals (GoMap.set id spec.Memory rm.allocatedMemory) ≤ rm.TotalMemory
        rw [GoMap.set, GoMap.sumVals_cons]
        have := GoMap.sumVals_erase_le id hM
        have hcomm : rm.AllocatedMemorySum + spec.Memory ≤ rm.TotalMemory := h2
        unfold ResourceManager.AllocatedMemorySum at hcomm
        linarith

theorem sound_applyOps (rm : ResourceManager) (ops : List LedgerOp)
    (h : Sound rm) (hops : ∀ op ∈ ops, op.Nonneg) : Sound (applyOps rm ops) := by
  induction ops generalizing rm with
  | nil => exact h
  | cons op rest ih =>
    exact ih _ (sound_apply op rm h (hops op (List.mem_cons_self _ _)))
      fun o ho => hops o (List.mem_cons_of_mem _ ho)

theorem totals_applyOps (rm : ResourceManager) (ops : List LedgerOp) :
    (applyOps rm ops).TotalCPU = rm.TotalCPU ∧
      (applyOps rm ops).TotalMemory = rm.TotalMemory := by
  induction ops generalizing rm with
  | nil => exact ⟨rfl, rfl⟩
  | cons op rest ih =>
    have hstep : (op.apply rm).TotalCPU = rm.TotalCPU ∧
        (op.apply rm).TotalMemory = rm.TotalMemory := by
      cases op with
      | alloc id spec => exact rm.allocate_fst_total id spec
      | release id => exact rm.release_total id
    have := ih (op.apply rm)
    exact ⟨this.1.trans hstep.1, this.2.trans hstep.2⟩

/-! ## C5 -/

/-- C5: for every sequence of `Allocate`/`Release` calls on one resource
ledger whose requested CPU and memory amounts are non-negative (and whose
declared capacities are non-negative, per the spec's numeric semantics for
`ResourceSpec`), at every observation point the sum of reserved CPU is at
most the total CPU and the sum of reserved memory is at most the total
memory. -/
theorem ledger_never_overcommits (cpu : ℚ) (mem : ℤ) (ops : List LedgerOp)
    (hcpu : 0 ≤ cpu) (hmem : 0 ≤ mem) (hops : ∀ op ∈ ops, op.Nonneg) :
    (applyOps (NewResourceManager cpu mem) ops).AllocatedCPUSum ≤ cpu ∧
      (applyOps (NewResourceManager cpu mem) ops).AllocatedMemorySum ≤ mem := by
  have h0 : Sound (NewResourceManager cpu mem) := by
    refine ⟨by simp [NewResourceManager], by simp [NewResourceManager], ?_, ?_⟩
    · simpa [NewResourceManager, ResourceManager.AllocatedCPUSum, GoMap.sumVals]
        using hcpu
    · simpa [NewResourceManager, ResourceManager.AllocatedMemorySum, GoMap.sumVals]
        using hmem
  have hS := sound_applyOps _ ops h0 hops
  have hT := totals_applyOps (NewResourceManager cpu mem) ops
  refine ⟨?_, ?_⟩
  · have := hS.2.2.1
    rwa [hT.1] at this
  · have := hS.2.2.2
    rwa [hT.2] at this

/-- C5 witness: a concrete instantiation of `ledger_never_overcommits` on a
4-core / 8192 MB ledger and a single allocation. -/
theorem ledger_never_overcommits_witness :
    (0 : ℚ) ≤ 4 ∧ (0 : ℤ) ≤ 8192 ∧
      (applyOps (NewResourceManager 4 8192)
          [LedgerOp.alloc "a" { CPU := 1, Memory := 100 }]).AllocatedCPUSum ≤ 4 ∧
      (applyOps (NewResourceManager 4 8192)
          [LedgerOp.alloc "a" { CPU := 1, Memory := 100 }]).AllocatedMemorySum ≤ 8192 := by
  have h := ledger_never_overcommits 4 8192
    [LedgerOp.alloc "a" { CPU := 1, Memory := 100 }]
    (by norm_num) (by norm_num)
    (by
      intro op hop
      rw [List.mem_singleton] at hop
      subst hop
      exact ⟨by norm_num, by norm_num⟩)
  exact ⟨by norm_num, by norm_num, h.1, h.2⟩

/-! ## C9 -/

/-- C9: `Release(id)` on an id with no current reservation leaves the ledger
unchanged (and, by its Go signature, returns no error), and `Release` is
idempotent: releasing the same id twice leaves the same state as releasing
it once. -/
theorem release_noop_and_idempotent :
    (∀ (rm : ResourceManager) (id : String),
        GoMap.lookup id rm.allocatedCPU = none →
        GoMap.lookup id rm.allocatedMemory = none →
        rm.Release id = rm) ∧
      (∀ (rm : ResourceManager) (id : String),
          (rm.Release id).Release id = rm.Release id) := by
  constructor
  · intro rm id h1 h2
    cases rm
    simp [ResourceManager.Release, GoMap.erase_of_lookup_none h1,
      GoMap.erase_of_lookup_none h2]
  · intro rm id
    cases rm
    simp [ResourceManager.Release, GoMap.erase_erase]

/-- C9 witness: `release_noop_and_idempotent` applied to an empty ledger and
the unknown id `"z"`. -/
theorem release_noop_and_idempotent_witness :
    (NewResourceManager 1 1).Release "z" = NewResourceManager 1 1 ∧
      ((NewResourceManager 1 1).Release "z").Release "z" =
        (NewResourceManager 1 1).Release "z" :=
  ⟨release_noop_and_idempotent.1 (NewResourceManager 1 1) "z" rfl rfl,
    release_noop_and_idempotent.2 (NewResourceManager 1 1) "z"⟩

/-! ## C10 -/

/-- C10: the ledger constructor, `Allocate` and `Release` all preserve the
invariant that a workload id has a recorded CPU reservation iff it has a
recorded memory reservation (the two reservation maps have equal key
sets). -/
theorem ledger_key_sets_equal :
    (∀ (cpu : ℚ) (mem : ℤ), EqKeys (NewResourceManager cpu mem)) ∧
      (∀ (rm : ResourceManager) (id : String) (spec : ResourceSpec),
          EqKeys rm → EqKeys (rm.Allocate id spec).1) ∧
      (∀ (rm : ResourceManager) (id : String),
          EqKeys rm → EqKeys (rm.Release id)) := by
  refine ⟨?_, ?_, ?_⟩
  · intro cpu mem k
    rfl
  · intro rm id spec h
    unfold ResourceManager.Allocate
    split
    · exact h
    · intro k
      by_cases hk : id = k
      · subst hk
        simp [GoMap.lookup_set_self]
      · simpa [GoMap.lookup_set_ne hk] using h k
  · intro rm id h k
    by_cases hk : id = k
    · subst hk
      simp [ResourceManager.Release, GoMap.lookup_erase_self]
    · simpa [ResourceManager.Release, GoMap.lookup_erase_ne hk] using h k

/-- C10 witness: `ledger_key_sets_equal` applied to a fresh ledger, one
allocation and one release. -/
theorem ledger_key_sets_equal_witness :
    EqKeys ((((NewResourceManager 4 8192).Allocate "a"
        { CPU := 1, Memory := 2048 }).1).Release "b") :=
  ledger_key_sets_equal.2.2 _ "b"
    (ledger_key_sets_equal.2.1 _ "a" _ (ledger_key_sets_equal.1 4 8192))

/-! ## Scheduler-selection lemmas -/

namespace ClusterManager

theorem foldl_selStep_some (spec : ResourceSpec) :
    ∀ (nodes : List Node) (acc : Option (Node × ℚ)),
      (∀ n s, acc = some (n, s) →
        n.Resources.CanAllocate spec = true ∧ s = scoreOf n.Resources spec) →
      ∀ n s, nodes.foldl (selStep spec) acc = some (n, s) →
        (n.Resources.CanAllocate spec = true ∧ s = scoreOf n.Resources spec) ∧
          (∀ m ∈ nodes, m.Resources.CanAllocate spec = true →
            s ≤ scoreOf m.Resources spec) ∧
          (∀ b bs, acc = some (b, bs) → s ≤ bs) := by
  intro nodes
  induction nodes with
  | nil =>
    intro acc hacc n s hres
    simp only [List.foldl_nil] at hres
    refine ⟨hacc n s hres, by simp, ?_⟩
    intro b bs hb
    rw [hres] at hb
    obtain ⟨h1, h2⟩ := Prod.ext_iff.mp (Option.some.inj hb)
    exact le_of_eq h2
  | cons node rest ih =>
    intro acc hacc n s hres
    simp only [List.foldl_cons] at hres
    have hacc2 : ∀ n s, selStep spec acc node = some (n, s) →
        n.Resources.CanAllocate spec = true ∧ s = scoreOf n.Resources spec := by
      intro n2 s2 hsel
      by_cases hel : node.Resources.CanAllocate spec = true
      · simp only [selStep, hel, if_true] at hsel
        cases acc with
        | none =>
          obtain ⟨h1, h2⟩ := Prod.ext_iff.mp (Option.some.inj hsel)
          simp only at h1 h2
          rw [← h1, ← h2]
          exact ⟨hel, rfl⟩
        | some p =>
          obtain ⟨b, bs⟩ := p
          by_cases hlt : scoreOf node.Resources spec < bs
          · simp only [if_pos hlt] at hsel
            obtain ⟨h1, h2⟩ := Prod.ext_iff.mp (Option.some.inj hsel)
            simp only at h1 h2
            rw [← h1, ← h2]
            exact ⟨hel, rfl⟩
          · simp only [if_neg hlt] at hsel
            obtain ⟨h1, h2⟩ := Prod.ext_iff.mp (Option.some.inj hsel)
            simp only at h1 h2
            rw [← h1, ← h2]
            exact hacc b bs rfl
      · simp only [selStep, hel, if_false] at hsel
        exact hacc n2 s2 hsel
    obtain ⟨hgood, hminrest, haccle⟩ := ih (selStep spec acc node) hacc2 n s hres
    refine ⟨hgood, ?_, ?_⟩
    · intro m hm helm
      rw [List.mem_cons] at hm
      rcases hm with rfl | hm
      · cases acc with
        | none =>
          have hsel : selStep spec none m = some (m, scoreOf m.Resources spec) := by
            simp [selStep, helm]
          exact le_of_le_of_eq (haccle _ _ hsel) rfl
        | some p =>
          obtain ⟨b, bs⟩ := p
          by_cases hlt : scoreOf m.Resources spec < bs
          · have hsel : selStep spec (some (b, bs)) m =
                some (m, scoreOf m.Resources spec) := by
              simp [selStep, helm, if_pos hlt]
            exact haccle _ _ hsel
          · have hsel : selStep spec (some (b, bs)) m = some (b, bs) := by
              simp [selStep, helm, if_neg hlt]
            exact (haccle _ _ hsel).trans (not_lt.mp hlt)
      · exact hminrest m hm helm
    · intro b bs hb
      subst hb
      by_cases hel : node.Resources.CanAllocate spec = true
      · by_cases hlt : scoreOf node.Resources spec < bs
        · have hsel : selStep spec (some (b, bs)) node =
              some (node, scoreOf node.Resources spec) := by
            simp [selStep, hel, if_pos hlt]
          exact (haccle _ _ hsel).trans (le_of_lt hlt)
        · have hsel : selStep spec (some (b, bs)) node = some (b, bs) := by
            simp [selStep, hel, if_neg hlt]
          exact haccle _ _ hsel
      · have hsel : selStep spec (some (b, bs)) node = some (b, bs) := by
          simp [selStep, hel]
        exact haccle _ _ hsel

theorem foldl_selStep_none_iff (spec : ResourceSpec) :
    ∀ (nodes : List Node) (acc : Option (Node × ℚ)),
      nodes.foldl (selStep spec) acc = none ↔
        (acc = none ∧ ∀ n ∈ nodes, n.Resources.CanAllocate spec = false) := by
  intro nodes
  induction nodes with
  | nil =>
    intro acc
    simp
  | cons node rest ih =>
    intro acc
    rw [List.foldl_cons, ih]
    constructor
    · rintro ⟨hstep, hrest⟩
      by_cases hel : node.Resources.CanAllocate spec = true
      · exfalso
        simp only [selStep, hel, if_true] at hstep
        cases acc with
        | none => exact Option.noConfusion hstep
        | some p =>
          obtain ⟨b, bs⟩ := p
          dsimp only at hstep
          split at hstep
          · exact Option.noConfusion hstep
          · exact Option.noConfusion hstep
      · simp only [selStep, hel, if_false] at hstep
        refine ⟨hstep, ?_⟩
        intro m hm
        rw [List.mem_cons] at hm
        rcases hm with rfl | hm
        · exact Bool.not_eq_true _ ▸ (Bool.eq_false_iff.mpr hel)
        · exact hrest m hm
    · rintro ⟨hacc, hall⟩
      have hel : node.Resources.CanAllocate spec = false :=
        hall node (List.mem_cons_self _ _)
      subst hacc
      constructor
      · simp [selStep, hel]
      · intro m hm
        exact hall m (List.mem_cons_of_mem _ hm)

theorem selectNode_spec (nodes : List Node) (spec : ResourceSpec) :
    ∀ n, selectNode nodes spec = some n →
      n.Resources.CanAllocate spec = true ∧
        ∀ m ∈ nodes, m.Resources.CanAllocate spec = true →
          scoreOf n.Resources spec ≤ scoreOf m.Resources spec := by
  intro n h
  unfold selectNode at h
  cases hres : nodes.foldl (selStep spec) none with
  | none => rw [hres] at h; exact Option.noConfusion h
  | some p =>
    obtain ⟨n2, s⟩ := p
    rw [hres] at h
    have hn : n2 = n := Option.some.inj h
    subst hn
    obtain ⟨⟨hel, hs⟩, hmin, _⟩ :=
      foldl_selStep_some spec nodes none (by intro a b hab; exact Option.noConfusion hab)
        n2 s hres
    exact ⟨hel, fun m hm helm => hs ▸ hmin m hm helm⟩

theorem selectNode_none_iff (nodes : List Node) (spec : ResourceSpec) :
    selectNode nodes spec = none ↔
      ∀ n ∈ nodes, n.Resources.CanAllocate spec = false := by
  unfold selectNode
  rw [Option.map_eq_none']
  rw [foldl_selStep_none_iff]
  simp

end ClusterManager

/-! ## C6 -/

/-- C6: `Schedule` considers only nodes whose `CanAllocate` is true at
decision time and selects among them a node of minimal score
`(totalCPU − (reservedCPU + reqCPU)) + (totalMemory − (reservedMem + reqMem))/1024`;
on the spec's example (empty node A, 4 cores / 8192 MB, vs empty node B,
8 cores / 16384 MB; request 1 core / 2048 MB) node A is selected with score
9 against B's score 21; and when no node passes admission control
`Schedule` fails with the no-capacity error. -/
theorem schedule_best_fit :
    (∀ (nodes : List Node) (spec : ResourceSpec) (n : Node),
        ClusterManager.selectNode nodes spec = some n →
        n.Resources.CanAllocate spec = true ∧
          ∀ m ∈ nodes, m.Resources.CanAllocate spec = true →
            ClusterManager.scoreOf n.Resources spec ≤
              ClusterManager.scoreOf m.Resources spec) ∧
      (∀ (cm : ClusterManager) (cid : String) (now : ℤ) (spec : ContainerSpec),
          (∀ n ∈ cm.nodes,
            n.Resources.CanAllocate { CPU := spec.CPU, Memory := spec.Memory } = false) →
          cm.Schedule cid now spec = (cm, none, some "no node has enough resources")) ∧
      ((ClusterManager.selectNode [nodeA, nodeB]
          { CPU := 1, Memory := 2048 }).map Node.ID = some "nodeA" ∧
        ClusterManager.scoreOf nodeA.Resources { CPU := 1, Memory := 2048 } = 9 ∧
        ClusterManager.scoreOf nodeB.Resources { CPU := 1, Memory := 2048 } = 21) := by
  refine ⟨?_, ?_, ?_, ?_, ?_⟩
  · intro nodes spec n h
    exact ClusterManager.selectNode_spec nodes spec n h
  · intro cm cid now spec h
    simp only [ClusterManager.Schedule,
      (ClusterManager.selectNode_none_iff cm.nodes _).mpr h]
  · norm_num [ClusterManager.selectNode, ClusterManager.selStep,
      ClusterManager.scoreOf, Node.Resources, ResourceManager.CanAllocate,
      ResourceManager.AllocatedCPUSum, ResourceManager.AllocatedMemorySum,
      GoMap.sumVals, NewResourceManager, NewManager, mkNode, nodeA, nodeB]
  · norm_num [ClusterManager.scoreOf, Node.Resources,
      ResourceManager.AllocatedCPUSum, ResourceManager.AllocatedMemorySum,
      GoMap.sumVals, NewResourceManager, NewManager, mkNode, nodeA]
  · norm_num [ClusterManager.scoreOf, Node.Resources,
      ResourceManager.AllocatedCPUSum, ResourceManager.AllocatedMemorySum,
      GoMap.sumVals, NewResourceManager, NewManager, mkNode, nodeB]

/-- C6 witness: `schedule_best_fit` applied to the one-node cluster
`[nodeA]` (hypothesis `selectNode = some nodeA` discharged concretely) and
to `cmTiny`, whose only node fails admission control. -/
theorem schedule_best_fit_witness :
    nodeA.Resources.CanAllocate { CPU := 1, Memory := 2048 } = true ∧
      cmTiny.Schedule "w1" 0 specReq =
        (cmTiny, none, some "no node has enough resources") := by
  constructor
  · exact (schedule_best_fit.1 [nodeA] { CPU := 1, Memory := 2048 } nodeA
      (by
        norm_num [ClusterManager.selectNode, ClusterManager.selStep,
          Node.Resources, ResourceManager.CanAllocate,
          ResourceManager.AllocatedCPUSum, ResourceManager.AllocatedMemorySum,
          GoMap.sumVals, NewResourceManager, NewManager, mkNode, nodeA])).1
  · exact schedule_best_fit.2.1 cmTiny "w1" 0 specReq
      (by
        intro n hn
        simp only [cmTiny, List.mem_singleton] at hn
        subst hn
        norm_num [Node.Resources, ResourceManager.CanAllocate,
          ResourceManager.AllocatedCPUSum, ResourceManager.AllocatedMemorySum,
          GoMap.sumVals, NewResourceManager, NewManager, mkNode, nodeTiny, specReq])

/-! ## C1 -/

/-- C1 (failing-input evaluation): on a one-node cluster whose backend
creates the unit, fails to start it, and then also fails to remove it,
`Schedule` returns the removal error while the generated workload id's
reservation (1 core / 2048 MB) is still recorded in the node's ledger: the
reserved sums after the failed attempt differ from the sums before it, so
the failed provisioning attempt leaks its reservation. -/
theorem schedule_cleanup_failure_leaks_reservation :
    (cmLeak.Schedule "w1" 0 specReq).2 = (none, some "remove failure") ∧
      (cmLeak.nodes.map fun n => n.Resources.Usage) =
        [{ CPU := 0, Memory := 0 }] ∧
      ((cmLeak.Schedule "w1" 0 specReq).1.nodes.map fun n => n.Resources.Usage) =
        [{ CPU := 1, Memory := 2048 }] ∧
      ((cmLeak.Schedule "w1" 0 specReq).1.nodes.map
          fun n => GoMap.lookup "w1" n.Resources.allocatedCPU) = [some 1] := by
  norm_num [ClusterManager.Schedule, ClusterManager.selectNode,
    ClusterManager.selStep, ClusterManager.scoreOf, ClusterManager.setNode,
    Node.Resources, Node.Docker, ResourceManager.CanAllocate,
    ResourceManager.Allocate, ResourceManager.Release, ResourceManager.Usage,
    ResourceManager.AllocatedCPUSum, ResourceManager.AllocatedMemorySum,
    GoMap.sumVals, GoMap.set, GoMap.erase, GoMap.lookup, NewResourceManager,
    NewManager, mkNode, Manager.AddContainer, specReq, cmLeak,
    dockerStartRemoveFail]

/-! ## C2 -/

/-- C2 (failing-input evaluation): a successful `Schedule` on a one-node
cluster returns the new workload record, which is now present in that
node's lifecycle-manager state, yet records no entry in the cluster's
assignment mapping (the mapping stays empty), so the claimed
"entry exists iff the workload is on exactly one node" consistency fails
immediately after the first successful placement. -/
theorem schedule_never_records_assignment :
    (cmHappy.Schedule "w1" 7 specReq).2.2 = none ∧
      ((cmHappy.Schedule "w1" 7 specReq).2.1.map ContainerInfo.ID) = some "c1" ∧
      (cmHappy.Schedule "w1" 7 specReq).1.assignments = [] ∧
      ((cmHappy.Schedule "w1" 7 specReq).1.nodes.map
          fun n => (GoMap.lookup "c1" n.mgr.state).isSome) = [true] := by
  norm_num [ClusterManager.Schedule, ClusterManager.selectNode,
    ClusterManager.selStep, ClusterManager.scoreOf, ClusterManager.setNode,
    Node.Resources, Node.Docker, ResourceManager.CanAllocate,
    ResourceManager.Allocate, ResourceManager.Release,
    ResourceManager.AllocatedCPUSum, ResourceManager.AllocatedMemorySum,
    GoMap.sumVals, GoMap.set, GoMap.erase, GoMap.lookup, NewResourceManager,
    NewManager, mkNode, Manager.AddContainer, specReq, cmHappy, dockerOK]

/-! ## C8 -/

/-- C8: `Manager.TerminateContainer` on an unknown id returns the not-found
error with no mutation of the state map or the ledger; when the backend
stop or remove step fails it returns the wrapped backend error leaving both
the ledger reservation and the workload record intact; and the reservation
is released and the record deleted exactly when both backend steps
succeed. -/
theorem terminate_releases_only_after_teardown (m : Manager) (id : String) :
    (GoMap.lookup id m.state = none →
        m.TerminateContainer id = (m, some "container not found")) ∧
      (∀ info, GoMap.lookup id m.state = some info →
        (∀ e, m.docker.StopContainer id = .error e →
            m.TerminateContainer id = (m, some ("stop error: " ++ e))) ∧
          (∀ e, m.docker.StopContainer id = .ok () →
              m.docker.RemoveContainer id = .error e →
              m.TerminateContainer id = (m, some ("remove error: " ++ e))) ∧
          (m.docker.StopContainer id = .ok () →
              m.docker.RemoveContainer id = .ok () →
              m.TerminateContainer id =
                ({ m with
                    resources := m.resources.Release info.Name,
                    state := GoMap.erase id m.state }, none))) := by
  constructor
  · intro h
    simp [Manager.TerminateContainer, h]
  · intro info h
    refine ⟨?_, ?_, ?_⟩
    · intro e he
      simp [Manager.TerminateContainer, h, he]
    · intro e hs he
      simp [Manager.TerminateContainer, h, hs, he]
    · intro hs hr
      simp [Manager.TerminateContainer, h, hs, hr]

/-- C8 witness: `terminate_releases_only_after_teardown` applied to
`nodeHeld`'s manager, whose state holds `"c9"` and whose backend teardown
succeeds. -/
theorem terminate_releases_only_after_teardown_witness :
    nodeHeld.mgr.TerminateContainer "c9" =
      ({ nodeHeld.mgr with
          resources := nodeHeld.mgr.resources.Release infoHeld.Name,
          state := GoMap.erase "c9" nodeHeld.mgr.state }, none) :=
  ((terminate_releases_only_after_teardown nodeHeld.mgr "c9").2 infoHeld
    rfl).2.2 rfl rfl

/-! ## C3 -/

/-- Every failing branch of `Manager.TerminateContainer` leaves the manager
unchanged. -/
theorem terminate_fail_fst {m : Manager} {id : String}
    (h : ((m.TerminateContainer id).2).isSome = true) :
    (m.TerminateContainer id).1 = m := by
  unfold Manager.TerminateContainer at *
  cases hl : GoMap.lookup id m.state with
  | none => simp [hl]
  | some info =>
    cases hs : m.docker.StopContainer id with
    | error e => simp [hl, hs]
    | ok u =>
      cases hr : m.docker.RemoveContainer id with
      | error e => simp [hl, hs, hr]
      | ok u2 =>
        exfalso
        simp [hl, hs, hr] at h

/-- When every node's manager fails to terminate `id`, the broadcast loop
returns all nodes unchanged and the not-found error. -/
theorem termLoop_all_fail (id : String) :
    ∀ nodes : List Node,
      (∀ n ∈ nodes, ((n.mgr.TerminateContainer id).2).isSome = true) →
      ClusterManager.termLoop id nodes = (nodes, some "container not found") := by
  intro nodes
  induction nodes with
  | nil => intro _; rfl
  | cons n rest ih =>
    intro h
    have hn := h n (List.mem_cons_self _ _)
    have hfst := terminate_fail_fst hn
    cases hr2 : (n.mgr.TerminateContainer id).2 with
    | none => rw [hr2] at hn; simp at hn
    | some e =>
      simp only [ClusterManager.termLoop, hr2]
      rw [ih fun p hp => h p (List.mem_cons_of_mem _ hp)]
      rw [hfst]

/-- The broadcast loop stops at the first node whose manager succeeds,
updating only that node (with the extra `Release id` on its ledger). -/
theorem termLoop_first_success (id : String) :
    ∀ (pre : List Node) (n : Node) (post : List Node),
      (∀ p ∈ pre, ((p.mgr.TerminateContainer id).2).isSome = true) →
      (n.mgr.TerminateContainer id).2 = none →
      ClusterManager.termLoop id (pre ++ n :: post) =
        (pre ++ ({ n with mgr :=
            { (n.mgr.TerminateContainer id).1 with
                resources :=
                  ((n.mgr.TerminateContainer id).1.resources.Release id) } } : Node)
            :: post,
          none) := by
  intro pre
  induction pre with
  | nil =>
    intro n post _ hn
    simp only [List.nil_append, ClusterManager.termLoop, hn]
  | cons q qs ih =>
    intro n post hpre hn
    have hq := hpre q (List.mem_cons_self _ _)
    have hfst := terminate_fail_fst hq
    cases hq2 : (q.mgr.TerminateContainer id).2 with
    | none => rw [hq2] at hq; simp at hq
    | some e =>
      simp only [List.cons_append, ClusterManager.termLoop, hq2, List.append_eq]
      rw [ih n post (fun p hp => hpre p (List.mem_cons_of_mem _ hp)) hn]
      rw [hfst]

/-- C3 counterexample: in `cmHeld` the id `"c9"` is absent from the
assignment mapping (which is empty), yet `TerminateContainer "c9"`
succeeds — the claim predicts a not-found failure for any id absent from
the assignment mapping. -/
theorem cluster_terminate_ignores_assignments :
    GoMap.lookup "c9" cmHeld.assignments = none ∧
      (cmHeld.TerminateContainer "c9").2 = none := by
  exact ⟨rfl, rfl⟩

/-- C3 (amended): `ClusterManager.TerminateContainer` does not consult the
assignment mapping and never mutates it: it tries every node's lifecycle
manager in iteration order; when every node's manager fails it returns the
not-found error with all nodes unchanged; and on the first node whose
manager succeeds it additionally releases `id` on that node's ledger and
returns success. -/
theorem cluster_terminate_broadcasts (cm : ClusterManager) (id : String) :
    ((cm.TerminateContainer id).1.assignments = cm.assignments) ∧
      ((∀ n ∈ cm.nodes, ((n.mgr.TerminateContainer id).2).isSome = true) →
          cm.TerminateContainer id = (cm, some "container not found")) ∧
      (∀ (pre : List Node) (n : Node) (post : List Node),
          cm.nodes = pre ++ n :: post →
          (∀ p ∈ pre, ((p.mgr.TerminateContainer id).2).isSome = true) →
          (n.mgr.TerminateContainer id).2 = none →
          cm.TerminateContainer id =
            ({ cm with nodes := pre ++ ({ n with mgr :=
                { (n.mgr.TerminateContainer id).1 with
                    resources :=
                      ((n.mgr.TerminateContainer id).1.resources.Release id) } } : Node)
                :: post },
              none)) := by
  refine ⟨rfl, ?_, ?_⟩
  · intro h
    show ({ cm with nodes := (ClusterManager.termLoop id cm.nodes).1 },
        (ClusterManager.termLoop id cm.nodes).2) = (cm, some "container not found")
    rw [termLoop_all_fail id cm.nodes h]
  · intro pre n post hsplit hpre hn
    show ({ cm with nodes := (ClusterManager.termLoop id cm.nodes).1 },
        (ClusterManager.termLoop id cm.nodes).2) = _
    rw [hsplit, termLoop_first_success id pre n post hpre hn]

/-- C3 witness: `cluster_terminate_broadcasts` applied to `cmHeld` and the
id `"c9"` held by its only node. -/
theorem cluster_terminate_broadcasts_witness :
    (cmHeld.TerminateContainer "c9").1.assignments = cmHeld.assignments ∧
      cmHeld.TerminateContainer "c9" =
        ({ cmHeld with nodes := [{ nodeHeld with mgr :=
            { (nodeHeld.mgr.TerminateContainer "c9").1 with
                resources :=
                  ((nodeHeld.mgr.TerminateContainer "c9").1.resources.Release "c9") } }] },
          none) := by
  refine ⟨(cluster_terminate_broadcasts cmHeld "c9").1, ?_⟩
  exact (cluster_terminate_broadcasts cmHeld "c9").2.2 [] nodeHeld []
    rfl (by intro p hp; simp at hp) rfl

/-! ## C4 -/

/-- C4 counterexample: with one and the same backend (image pull always
fails, create and start succeed), the lifecycle manager's
`ProvisionContainer` fails at the image-pull step while `Schedule` on a
node with that backend succeeds and stores status `"Running"` (not
`"running"`) — so `Schedule`'s node-side steps are not equivalent to
`ProvisionContainer` with the generated id as the workload's name. -/
theorem schedule_not_equivalent_to_provision :
    (cmNoPull.Schedule "w1" 0 specReq).2 =
        (some { ID := "c1", Name := "w1", Image := "img", CPU := 1,
                MemoryMB := 2048, CreatedAt := 0, Status := "Running", TTL := 0 },
          none) ∧
      (mgrNoPull.ProvisionContainer 0 { specReq with Name := "w1" }).2 =
        (none, some "failed to pull image: pull failure") := by
  constructor
  · norm_num [ClusterManager.Schedule, ClusterManager.selectNode,
      ClusterManager.selStep, ClusterManager.scoreOf, ClusterManager.setNode,
      Node.Resources, Node.Docker, ResourceManager.CanAllocate,
      ResourceManager.Allocate, ResourceManager.Release,
      ResourceManager.AllocatedCPUSum, ResourceManager.AllocatedMemorySum,
      GoMap.sumVals, GoMap.set, GoMap.erase, GoMap.lookup, NewResourceManager,
      NewManager, mkNode, Manager.AddContainer, specReq, cmNoPull, dockerPullBroken]
  · norm_num [Manager.ProvisionContainer, ResourceManager.CanAllocate,
      ResourceManager.Allocate, ResourceManager.Release,
      ResourceManager.AllocatedCPUSum, ResourceManager.AllocatedMemorySum,
      GoMap.sumVals, GoMap.set, GoMap.erase, NewResourceManager, NewManager,
      specReq, mgrNoPull, dockerPullBroken]
    rfl

/-- C4 (amended): after generating the fresh workload id, `Schedule`'s
node-side steps follow `ProvisionContainer`'s reserve, create, start order
with that id as the workload's name, but differ in exactly these ways:
(a) the image-pull step is skipped; (b) on create failure both release the
reservation, but `Schedule` returns the backend error bare where
`ProvisionContainer` wraps it as "failed to create container: ..."; (c) on
start failure `Schedule` removes the created unit — if the removal succeeds
it releases the reservation but returns a nil record with a nil error (the
start error is not propagated), and if the removal fails it returns the
removal error without releasing the reservation — where
`ProvisionContainer` releases and returns the wrapped start error; (d) on
success the stored record has status `"Running"` where `ProvisionContainer`
stores `"running"`. -/
theorem schedule_provision_divergence (cm : ClusterManager) (cid : String)
    (now : ℤ) (spec : ContainerSpec) (node : Node)
    (h : ClusterManager.selectNode cm.nodes
      { CPU := spec.CPU, Memory := spec.Memory } = some node) :
    (∀ id, node.mgr.docker.PullImage spec.Image = .ok () →
      node.mgr.docker.CreateContainer { spec with Name := cid } = .ok id →
      node.mgr.docker.StartContainer id = .ok () →
      node.mgr.ProvisionContainer now { spec with Name := cid } =
          ({ node.mgr with
              resources := (node.mgr.resources.Allocate cid
                { CPU := spec.CPU, Memory := spec.Memory }).1,
              state := GoMap.set id
                (ContainerInfo.mk id cid spec.Image spec.CPU spec.Memory now
                  "running" spec.TTL) node.mgr.state },
            some (ContainerInfo.mk id cid spec.Image spec.CPU spec.Memory now
              "running" spec.TTL), none) ∧
        cm.Schedule cid now spec =
          (ClusterManager.setNode cm { node with mgr :=
              { node.mgr with
                  resources := (node.mgr.resources.Allocate cid
                    { CPU := spec.CPU, Memory := spec.Memory }).1,
                  state := GoMap.set id
                    (ContainerInfo.mk id cid spec.Image spec.CPU spec.Memory now
                      "Running" spec.TTL) node.mgr.state } },
            some (ContainerInfo.mk id cid spec.Image spec.CPU spec.Memory now
              "Running" spec.TTL), none)) ∧
      (∀ id e, node.mgr.docker.PullImage spec.Image = .error e →
        node.mgr.docker.CreateContainer { spec with Name := cid } = .ok id →
        node.mgr.docker.StartContainer id = .ok () →
        node.mgr.ProvisionContainer now { spec with Name := cid } =
            ({ node.mgr with
                resources := ((node.mgr.resources.Allocate cid
                  { CPU := spec.CPU, Memory := spec.Memory }).1.Release cid) },
              none, some ("failed to pull image: " ++ e)) ∧
          (cm.Schedule cid now spec).2 =
            (some (ContainerInfo.mk id cid spec.Image spec.CPU spec.Memory now
              "Running" spec.TTL), none)) ∧
      (∀ e, node.mgr.docker.CreateContainer { spec with Name := cid } = .error e →
        (node.mgr.docker.PullImage spec.Image = .ok () →
          node.mgr.ProvisionContainer now { spec with Name := cid } =
            ({ node.mgr with
                resources := ((node.mgr.resources.Allocate cid
                  { CPU := spec.CPU, Memory := spec.Memory }).1.Release cid) },
              none, some ("failed to create container: " ++ e))) ∧
          cm.Schedule cid now spec =
            (ClusterManager.setNode cm { node with mgr :=
                { node.mgr with
                    resources := ((node.mgr.resources.Allocate cid
                      { CPU := spec.CPU, Memory := spec.Memory }).1.Release cid) } },
              none, some e)) ∧
      (∀ id e, node.mgr.docker.CreateContainer { spec with Name := cid } = .ok id →
        node.mgr.docker.StartContainer id = .error e →
        (node.mgr.docker.PullImage spec.Image = .ok () →
          node.mgr.ProvisionContainer now { spec with Name := cid } =
            ({ node.mgr with
                resources := ((node.mgr.resources.Allocate cid
                  { CPU := spec.CPU, Memory := spec.Memory }).1.Release cid) },
              none, some ("failed to start container: " ++ e))) ∧
          (node.mgr.docker.RemoveContainer id = .ok () →
            cm.Schedule cid now spec =
              (ClusterManager.setNode cm { node with mgr :=
                  { node.mgr with
                      resources := ((node.mgr.resources.Allocate cid
                        { CPU := spec.CPU, Memory := spec.Memory }).1.Release cid) } },
                none, none)) ∧
          (∀ e2, node.mgr.docker.RemoveContainer id = .error e2 →
            cm.Schedule cid now spec =
              (ClusterManager.setNode cm { node with mgr :=
                  { node.mgr with
                      resources := (node.mgr.resources.Allocate cid
                        { CPU := spec.CPU, Memory := spec.Memory }).1 } },
                none, some e2))) := by
  have hel : node.mgr.resources.CanAllocate
      { CPU := spec.CPU, Memory := spec.Memory } = true :=
    (ClusterManager.selectNode_spec cm.nodes _ node h).1
  have hok : (node.mgr.resources.Allocate cid
      { CPU := spec.CPU, Memory := spec.Memory }).2 = true := by
    rw [ResourceManager.allocate_snd_eq_canAllocate]
    exact hel
  refine ⟨?_, ?_, ?_, ?_⟩
  · intro id hpull hcreate hstart
    constructor
    · simp [Manager.ProvisionContainer, hel, hok, hpull, hcreate, hstart]
    · simp [ClusterManager.Schedule, h, Node.Resources, Node.Docker, hok,
        hcreate, hstart, Manager.AddContainer]
  · intro id e hpull hcreate hstart
    constructor
    · simp [Manager.ProvisionContainer, hel, hok, hpull]
    · simp [ClusterManager.Schedule, h, Node.Resources, Node.Docker, hok,
        hcreate, hstart, Manager.AddContainer]
  · intro e hcreate
    constructor
    · intro hpull
      simp [Manager.ProvisionContainer, hel, hok, hpull, hcreate]
    · simp [ClusterManager.Schedule, h, Node.Resources, Node.Docker, hok,
        hcreate]
  · intro id e hcreate hstart
    refine ⟨?_, ?_, ?_⟩
    · intro hpull
      simp [Manager.ProvisionContainer, hel, hok, hpull, hcreate, hstart]
    · intro hremove
      simp [ClusterManager.Schedule, h, Node.Resources, Node.Docker, hok,
        hcreate, hstart, hremove]
    · intro e2 hremove
      simp [ClusterManager.Schedule, h, Node.Resources, Node.Docker, hok,
        hcreate, hstart, hremove]

/-- C4 witness: `schedule_provision_divergence` instantiated on the
all-success one-node cluster `cmHappy` (hypotheses discharged concretely),
extracting the success-path equation for `Schedule`. -/
theorem schedule_provision_divergence_witness :
    cmHappy.Schedule "w1" 3 specReq =
      (ClusterManager.setNode cmHappy { (mkNode "n1" dockerOK 4 8192) with mgr :=
          { (mkNode "n1" dockerOK 4 8192).mgr with
              resources := ((mkNode "n1" dockerOK 4 8192).mgr.resources.Allocate "w1"
                { CPU := specReq.CPU, Memory := specReq.Memory }).1,
              state := GoMap.set "c1"
                (ContainerInfo.mk "c1" "w1" specReq.Image specReq.CPU
                  specReq.Memory 3 "Running" specReq.TTL)
                (mkNode "n1" dockerOK 4 8192).mgr.state } },
        some (ContainerInfo.mk "c1" "w1" specReq.Image specReq.CPU
          specReq.Memory 3 "Running" specReq.TTL), none) :=
  ((schedule_provision_divergence cmHappy "w1" 3 specReq
      (mkNode "n1" dockerOK 4 8192)
      (by
        norm_num [ClusterManager.selectNode, ClusterManager.selStep,
          Node.Resources, ResourceManager.CanAllocate,
          ResourceManager.AllocatedCPUSum, ResourceManager.AllocatedMemorySum,
          GoMap.sumVals, NewResourceManager, NewManager, mkNode, cmHappy,
          specReq])).1 "c1" rfl rfl rfl).2

/-! ## C7 -/

theorem lookup_erase_of_none {α : Type} {k : String} (j : String)
    {l : List (String × α)} (h : GoMap.lookup k l = none) :
    GoMap.lookup k (GoMap.erase j l) = none := by
  by_cases hj : j = k
  · subst hj
    exact GoMap.lookup_erase_self j l
  · rw [GoMap.lookup_erase_ne hj]
    exact h

/-- One sweep pass equals a pure erase-fold on the state and a pure
release-fold on the ledger, provided the backend teardown succeeds and the
scanned entries are the (distinct-key) current contents of the state. -/
theorem cleanup_fold_characterize (now : ℤ) :
    ∀ (l : List (String × ContainerInfo)) (acc : Manager),
      (∀ s, acc.docker.StopContainer s = .ok ()) →
      (∀ s, acc.docker.RemoveContainer s = .ok ()) →
      ((l.map Prod.fst).Nodup) →
      (∀ p ∈ l, GoMap.lookup p.1 acc.state = some p.2) →
      l.foldl
          (fun acc p =>
            if p.2.TTL > 0 ∧ p.2.CreatedAt + p.2.TTL < now then
              (acc.TerminateContainer p.1).1
            else acc) acc =
        { docker := acc.docker,
          state := l.foldl
            (fun s p =>
              if p.2.TTL > 0 ∧ p.2.CreatedAt + p.2.TTL < now then
                GoMap.erase p.1 s
              else s) acc.state,
          resources := l.foldl
            (fun r p =>
              if p.2.TTL > 0 ∧ p.2.CreatedAt + p.2.TTL < now then
                r.Release p.2.Name
              else r) acc.resources } := by
  intro l
  induction l with
  | nil =>
    intro acc _ _ _ _
    rfl
  | cons p rest ih =>
    intro acc hstop hremove hnd hlook
    simp only [List.map_cons, List.nodup_cons] at hnd
    have hp : GoMap.lookup p.1 acc.state = some p.2 :=
      hlook p (List.mem_cons_self _ _)
    by_cases hexp : p.2.TTL > 0 ∧ p.2.CreatedAt + p.2.TTL < now
    · have hterm : acc.TerminateContainer p.1 =
          ({ acc with
              resources := acc.resources.Release p.2.Name,
              state := GoMap.erase p.1 acc.state }, none) := by
        simp [Manager.TerminateContainer, hp, hstop p.1, hremove p.1]
      simp only [List.foldl_cons, if_pos hexp, hterm]
      rw [ih (Manager.mk acc.docker (GoMap.erase p.1 acc.state)
            (acc.resources.Release p.2.Name)) hstop hremove hnd.2
          (fun q hq => by
            have hne : p.1 ≠ q.1 := fun hpq =>
              hnd.1 (hpq ▸ List.mem_map.mpr ⟨q, hq, rfl⟩)
            show GoMap.lookup q.1 (GoMap.erase p.1 acc.state) = some q.2
            rw [GoMap.lookup_erase_ne hne]
            exact hlook q (List.mem_cons_of_mem _ hq))]
    · simp only [List.foldl_cons, if_neg hexp]
      exact ih acc hstop hremove hnd.2
        fun q hq => hlook q (List.mem_cons_of_mem _ hq)

/-- The pure erase-fold never resurrects an id that is already absent. -/
theorem stateFold_none (now : ℤ) :
    ∀ (l : List (String × ContainerInfo)) (s : List (String × ContainerInfo))
      (id : String), GoMap.lookup id s = none →
      GoMap.lookup id
          (l.foldl
            (fun s p =>
              if p.2.TTL > 0 ∧ p.2.CreatedAt + p.2.TTL < now then
                GoMap.erase p.1 s
              else s) s) = none := by
  intro l
  induction l with
  | nil => intro s id h; exact h
  | cons p rest ih =>
    intro s id h
    simp only [List.foldl_cons]
    by_cases hexp : p.2.TTL > 0 ∧ p.2.CreatedAt + p.2.TTL < now
    · rw [if_pos hexp]
      exact ih _ id (lookup_erase_of_none p.1 h)
    · rw [if_neg hexp]
      exact ih _ id h

/-- The pure erase-fold does not touch ids outside the scanned keys. -/
theorem stateFold_other (now : ℤ) :
    ∀ (l : List (String × ContainerInfo)) (s : List (String × ContainerInfo))
      (id : String), (∀ p ∈ l, p.1 ≠ id) →
      GoMap.lookup id
          (l.foldl
            (fun s p =>
              if p.2.TTL > 0 ∧ p.2.CreatedAt + p.2.TTL < now then
                GoMap.erase p.1 s
              else s) s) = GoMap.lookup id s := by
  intro l
  induction l with
  | nil => intro s id _; rfl
  | cons p rest ih =>
    intro s id h
    simp only [List.foldl_cons]
    have hrest : ∀ q ∈ rest, q.1 ≠ id := fun q hq => h q (List.mem_cons_of_mem _ hq)
    by_cases hexp : p.2.TTL > 0 ∧ p.2.CreatedAt + p.2.TTL < now
    · rw [if_pos hexp, ih _ id hrest,
        GoMap.lookup_erase_ne (h p (List.mem_cons_self _ _))]
    · rw [if_neg hexp]
      exact ih _ id hrest

/-- Lookup through the pure erase-fold for an entry of the scanned list:
erased exactly when its TTL is positive and it is past its deadline. -/
theorem stateFold_mem (now : ℤ) :
    ∀ (l : List (String × ContainerInfo)) (s : List (String × ContainerInfo)),
      (l.map Prod.fst).Nodup →
      ∀ (id : String) (info : ContainerInfo), (id, info) ∈ l →
        GoMap.lookup id
            (l.foldl
              (fun s p =>
                if p.2.TTL > 0 ∧ p.2.CreatedAt + p.2.TTL < now then
                  GoMap.erase p.1 s
                else s) s) =
          if info.TTL > 0 ∧ info.CreatedAt + info.TTL < now then none
          else GoMap.lookup id s := by
  intro l
  induction l with
  | nil => intro s _ id info h; simp at h
  | cons p rest ih =>
    intro s hnd id info h
    simp only [List.map_cons, List.nodup_cons] at hnd
    rw [List.mem_cons] at h
    simp only [List.foldl_cons]
    rcases h with h | h
    · obtain rfl : p = (id, info) := h.symm
      by_cases hexp : info.TTL > 0 ∧ info.CreatedAt + info.TTL < now
      · rw [if_pos hexp, if_pos hexp]
        exact stateFold_none now rest _ id (GoMap.lookup_erase_self id s)
      · rw [if_neg hexp, if_neg hexp]
        refine stateFold_other now rest s id ?_
        intro q hq
        intro hqid
        exact hnd.1 (hqid ▸ List.mem_map.mpr ⟨q, hq, rfl⟩)
    · have hne : p.1 ≠ id := by
        intro hpid
        exact hnd.1 (hpid ▸ List.mem_map.mpr ⟨(id, info), h, rfl⟩)
      by_cases hexp : p.2.TTL > 0 ∧ p.2.CreatedAt + p.2.TTL < now
      · rw [if_pos hexp, ih _ hnd.2 id info h, GoMap.lookup_erase_ne hne]
      · rw [if_neg hexp]
        exact ih _ hnd.2 id info h

/-- The pure release-fold never restores a reservation key it has
removed. -/
theorem resFold_none (now : ℤ) :
    ∀ (l : List (String × ContainerInfo)) (r : ResourceManager) (name : String),
      GoMap.lookup name r.allocatedCPU = none →
      GoMap.lookup name r.allocatedMemory = none →
      GoMap.lookup name
          ((l.foldl
            (fun r p =>
              if p.2.TTL > 0 ∧ p.2.CreatedAt + p.2.TTL < now then
                r.Release p.2.Name
              else r) r)).allocatedCPU = none ∧
        GoMap.lookup name
            ((l.foldl
              (fun r p =>
                if p.2.TTL > 0 ∧ p.2.CreatedAt + p.2.TTL < now then
                  r.Release p.2.Name
                else r) r)).allocatedMemory = none := by
  intro l
  induction l with
  | nil => intro r name h1 h2; exact ⟨h1, h2⟩
  | cons p rest ih =>
    intro r name h1 h2
    simp only [List.foldl_cons]
    by_cases hexp : p.2.TTL > 0 ∧ p.2.CreatedAt + p.2.TTL < now
    · rw [if_pos hexp]
      exact ih _ name (lookup_erase_of_none p.2.Name h1)
        (lookup_erase_of_none p.2.Name h2)
    · rw [if_neg hexp]
      exact ih _ name h1 h2

/-- The pure release-fold removes the reservation of every expired scanned
entry. -/
theorem resFold_releases (now : ℤ) :
    ∀ (l : List (String × ContainerInfo)) (r : ResourceManager)
      (id : String) (info : ContainerInfo), (id, info) ∈ l →
      info.TTL > 0 → info.CreatedAt + info.TTL < now →
      GoMap.lookup info.Name
          ((l.foldl
            (fun r p =>
              if p.2.TTL > 0 ∧ p.2.CreatedAt + p.2.TTL < now then
                r.Release p.2.Name
              else r) r)).allocatedCPU = none ∧
        GoMap.lookup info.Name
            ((l.foldl
              (fun r p =>
                if p.2.TTL > 0 ∧ p.2.CreatedAt + p.2.TTL < now then
                  r.Release p.2.Name
                else r) r)).allocatedMemory = none := by
  intro l
  induction l with
  | nil => intro r id info h; simp at h
  | cons p rest ih =>
    intro r id info h httl hpast
    rw [List.mem_cons] at h
    simp only [List.foldl_cons]
    rcases h with h | h
    · obtain rfl : p = (id, info) := h.symm
      rw [if_pos ⟨httl, hpast⟩]
      exact resFold_none now rest _ info.Name
        (GoMap.lookup_erase_self info.Name r.allocatedCPU)
        (GoMap.lookup_erase_self info.Name r.allocatedMemory)
    · by_cases hexp : p.2.TTL > 0 ∧ p.2.CreatedAt + p.2.TTL < now
      · rw [if_pos hexp]
        exact ih _ id info h httl hpast
      · rw [if_neg hexp]
        exact ih _ id info h httl hpast

/-- C7 (amended): a run of the expiration sweep, when the backend teardown
succeeds, removes from the manager's state exactly those stored records
whose TTL is positive (not merely non-zero) and whose `createdAt + ttl`
lies strictly in the past at the scan's time snapshot; a record with TTL 0
is never auto-terminated regardless of elapsed time; and each terminated
expired record's ledger reservation (keyed by its name) is released. -/
theorem sweep_terminates_exactly_expired (m : Manager) (now : ℤ)
    (hnd : (m.state.map Prod.fst).Nodup)
    (hstop : ∀ s, m.docker.StopContainer s = .ok ())
    (hremove : ∀ s, m.docker.RemoveContainer s = .ok ()) :
    (∀ id info, GoMap.lookup id m.state = some info →
        GoMap.lookup id (m.cleanupExpiredContainers now).state =
          if info.TTL > 0 ∧ info.CreatedAt + info.TTL < now then none
          else some info) ∧
      (∀ id info, GoMap.lookup id m.state = some info → info.TTL = 0 →
          GoMap.lookup id (m.cleanupExpiredContainers now).state = some info) ∧
      (∀ id info, GoMap.lookup id m.state = some info →
          info.TTL > 0 → info.CreatedAt + info.TTL < now →
          GoMap.lookup info.Name
              (m.cleanupExpiredContainers now).resources.allocatedCPU = none ∧
            GoMap.lookup info.Name
              (m.cleanupExpiredContainers now).resources.allocatedMemory = none) := by
  have hchar := cleanup_fold_characterize now m.state m hstop hremove hnd
    fun p hp => GoMap.lookup_of_mem_nodup hnd hp
  have hstate : (m.cleanupExpiredContainers now).state =
      m.state.foldl
        (fun s p =>
          if p.2.TTL > 0 ∧ p.2.CreatedAt + p.2.TTL < now then
            GoMap.erase p.1 s
          else s) m.state := by
    show (m.state.foldl
        (fun acc p =>
          if p.2.TTL > 0 ∧ p.2.CreatedAt + p.2.TTL < now then
            (acc.TerminateContainer p.1).1
          else acc) m).state = _
    rw [hchar]
  have hres : (m.cleanupExpiredContainers now).resources =
      m.state.foldl
        (fun r p =>
          if p.2.TTL > 0 ∧ p.2.CreatedAt + p.2.TTL < now then
            r.Release p.2.Name
          else r) m.resources := by
    show (m.state.foldl
        (fun acc p =>
          if p.2.TTL > 0 ∧ p.2.CreatedAt + p.2.TTL < now then
            (acc.TerminateContainer p.1).1
          else acc) m).resources = _
    rw [hchar]
  have hmain : ∀ id info, GoMap.lookup id m.state = some info →
      GoMap.lookup id (m.cleanupExpiredContainers now).state =
        if info.TTL > 0 ∧ info.CreatedAt + info.TTL < now then none
        else some info := by
    intro id info h
    have hmem := GoMap.lookup_eq_some_mem h
    rw [hstate, stateFold_mem now m.state m.state hnd id info hmem]
    by_cases hexp : info.TTL > 0 ∧ info.CreatedAt + info.TTL < now
    · rw [if_pos hexp, if_pos hexp]
    · rw [if_neg hexp, if_neg hexp, h]
  refine ⟨hmain, ?_, ?_⟩
  · intro id info h httl
    have := hmain id info h
    rwa [if_neg (by rw [httl]; simp)] at this
  · intro id info h httl hpast
    have hmem := GoMap.lookup_eq_some_mem h
    rw [hres]
    exact resFold_releases now m.state m.resources id info hmem httl hpast

/-- C7 witness: `sweep_terminates_exactly_expired` applied to `mgrSweep` at
time 10: the expired record `"a"` is removed and its reservation `"wa"`
released, while the TTL-0 record `"b"` survives. -/
theorem sweep_terminates_exactly_expired_witness :
    GoMap.lookup "a" (mgrSweep.cleanupExpiredContainers 10).state = none ∧
      GoMap.lookup "b" (mgrSweep.cleanupExpiredContainers 10).state =
        some infoForever ∧
      GoMap.lookup "wa"
          (mgrSweep.cleanupExpiredContainers 10).resources.allocatedCPU = none ∧
      GoMap.lookup "wa"
          (mgrSweep.cleanupExpiredContainers 10).resources.allocatedMemory = none := by
  have h := sweep_terminates_exactly_expired mgrSweep 10 (by decide)
    (fun _ => rfl) (fun _ => rfl)
  refine ⟨?_, ?_, ?_, ?_⟩
  · have h1 := h.1 "a" infoExpiring rfl
    rwa [if_pos (by decide)] at h1
  · exact h.2.1 "b" infoForever rfl rfl
  · exact (h.2.2 "a" infoExpiring rfl (by decide) (by decide)).1
  · exact (h.2.2 "a" infoExpiring rfl (by decide) (by decide)).2

/-- C7 counterexample: the record `"x"` has non-zero TTL (−1) and its
`createdAt + ttl` lies in the past at time 5, yet the sweep does not
terminate it (the source tests `TTL > 0`, not `TTL ≠ 0`): its record and
its ledger reservation survive unchanged. -/
theorem sweep_skips_negative_ttl :
    infoNegTTL.TTL ≠ 0 ∧ infoNegTTL.CreatedAt + infoNegTTL.TTL < 5 ∧
      GoMap.lookup "x" (mgrNegTTL.cleanupExpiredContainers 5).state =
        some infoNegTTL ∧
      (mgrNegTTL.cleanupExpiredContainers 5).resources.allocatedCPU =
        mgrNegTTL.resources.allocatedCPU :=
  ⟨by decide, by decide, rfl, rfl⟩

end MiniCloud
